import Mathlib

/-!
Shallow embedding of `src/mpv_tui.py` (shellMPVplayer): the playback
session state machine, the scrollable viewport logic, and the event loop.

Processes are modelled by a bookkeeping table `procs` recording every
spawned player process with its pid, the file it was launched for, whether
it is still alive, and whether it was force-killed.  The OS environment
(which player binaries resolve, how long a process takes to die after
`terminate()`) is an explicit `Env` parameter.
-/

/-- `REFRESH_DELAY`-style constant: `process.wait(timeout=1)` grace period
in seconds used by `stop_playback`. -/
def STOP_GRACE_SECONDS : Nat := 1

/-- A spawned player process, as bookkeeping: its pid, the media file it
was launched for, whether it is still running, and whether it was
force-killed (`kill()` after the grace period) rather than terminating
gracefully. -/
structure Proc where
  pid : Nat
  file : String
  alive : Bool
  killed : Bool
deriving DecidableEq, Repr

/-- The OS environment seen by the player: which candidate player commands
are resolvable (`FileNotFoundError` otherwise), and how many seconds the
current child needs to exit after receiving `terminate()`. -/
structure Env where
  available : String → Bool
  termTime : Nat

/-- Combined state of `PlayerState` (child_finished, mpv_process,
needs_redraw) and `MediaPlayer` (files, highlight, start_index,
shuffle_mode), plus the process bookkeeping table.  `highlight` and
`start_index` are `Int` as in Python. -/
structure MediaPlayer where
  child_finished : Bool
  mpv_process : Option Nat
  needs_redraw : Bool
  directory : String
  files : List String
  highlight : Int
  start_index : Int
  shuffle_mode : Bool
  procs : List Proc
  nextPid : Nat
deriving DecidableEq, Repr

/-- The state right after `MediaPlayer.__init__` for a given file list
(files are loaded before the loop starts; `needs_redraw` starts `True`). -/
def initState (files : List String) : MediaPlayer :=
  { child_finished := false
    mpv_process := none
    needs_redraw := true
    directory := "."
    files := files
    highlight := 0
    start_index := 0
    shuffle_mode := false
    procs := []
    nextPid := 0 }

/-- The candidate player commands tried by `play_file`, in preference
order: command name paired with its argument list (the resolved file path
last). -/
def MEDIA_PLAYERS (filepath : String) : List (String × List String) :=
  [("mpv", ["--no-terminal", "--quiet", filepath]),
   ("mplayer", ["-quiet", filepath]),
   ("vlc", ["--intf", "dummy", filepath])]

/-- The `for player_cmd in players: try Popen ... except FileNotFoundError`
loop: the first command whose executable resolves. -/
def firstAvailable (env : Env) : List (String × List String) → Option (String × List String)
  | [] => none
  | c :: rest => if env.available c.1 then some c else firstAvailable env rest

/-- Whether any of the three candidate players is resolvable. -/
def someAvailable (env : Env) : Bool :=
  env.available "mpv" || env.available "mplayer" || env.available "vlc"

/-- Mark the process with the given pid as no longer alive; `k` records
whether it had to be force-killed. -/
def markDead (pid : Nat) (k : Bool) (ps : List Proc) : List Proc :=
  ps.map fun p => if p.pid = pid then { p with alive := false, killed := k } else p

/-- `MediaPlayer.stop_playback`: if a session handle is present, call
`terminate()`, `wait(timeout=1)`, and `kill()` on `TimeoutExpired`; in the
`finally` block clear the slot and mark dirty.  With no session it is a
plain no-op. -/
def stop_playback (env : Env) (s : MediaPlayer) : MediaPlayer :=
  match s.mpv_process with
  | none => s
  | some pid =>
      { s with
        procs := markDead pid (decide (STOP_GRACE_SECONDS < env.termTime)) s.procs
        mpv_process := none
        needs_redraw := true }

/-- `MediaPlayer.play_file`: first `stop_playback()`, then try each
candidate player on the resolved path `directory / filename`; on the first
successful `Popen` record the new session, mark dirty and return `True`;
return `False` if every candidate raises `FileNotFoundError`. -/
def play_file (env : Env) (filename : String) (s : MediaPlayer) : Bool × MediaPlayer :=
  let s := stop_playback env s
  let filepath := s.directory ++ "/" ++ filename
  match firstAvailable env (MEDIA_PLAYERS filepath) with
  | some _ =>
      (true,
       { s with
         procs := s.procs ++ [⟨s.nextPid, filename, true, false⟩]
         nextPid := s.nextPid + 1
         mpv_process := some s.nextPid
         needs_redraw := true })
  | none => (false, s)

/-- `MediaPlayer.update_scroll`: minimal scroll keeping the highlight in
the window, then clamp `start_index` with `max(0, start_index)`. -/
def update_scroll (dc : Int) (s : MediaPlayer) : MediaPlayer :=
  let si :=
    if s.highlight < s.start_index then s.highlight
    else if s.start_index + dc ≤ s.highlight then s.highlight - dc + 1
    else s.start_index
  { s with start_index := max 0 si }

/-- `MediaPlayer.play_random_file`: return immediately when the library is
empty; otherwise draw a random index (`random.randint(0, len-1)` modelled
by `r % len` for a supplied random seed `r`), play that file, move the
highlight to it, re-scroll, and mark dirty. -/
def play_random_file (env : Env) (dc : Int) (r : Nat) (s : MediaPlayer) : MediaPlayer :=
  if s.files.isEmpty then s
  else
    let random_index := r % s.files.length
    let s := (play_file env (s.files.getD random_index "") s).2
    let s := update_scroll dc { s with highlight := (random_index : Int) }
    { s with needs_redraw := true }

/-- The state effect of `MediaPlayer.draw_interface`: return unchanged when
not dirty, otherwise render the frame and clear the dirty flag. -/
def draw_interface (s : MediaPlayer) : MediaPlayer :=
  if !s.needs_redraw then s else { s with needs_redraw := false }

/-- One tick of `MediaPlayer._monitor_processes`: if a session handle is
present and `poll()` reports the child exited (`exited`), clear the slot,
raise the finished signal and mark dirty. -/
def monitorTick (exited : Bool) (s : MediaPlayer) : MediaPlayer :=
  match s.mpv_process with
  | none => s
  | some pid =>
      if exited then
        { s with
          procs := markDead pid false s.procs
          mpv_process := none
          child_finished := true
          needs_redraw := true }
      else s

/-- The keys recognized by the main loop (plus `unknown` for any other
pressed key, which lands in the final `else` branch). -/
inductive Key where
  | up
  | down
  | pgUp
  | pgDn
  | home
  | endKey
  | enter
  | space
  | keyS
  | keyR
  | keyQ
  | unknown
deriving DecidableEq, Repr

/-- The `if self.state.child_finished:` block of the main loop: consume the
signal; only under shuffle mode start a random file. -/
def handleFinished (env : Env) (dc : Int) (r : Nat) (s : MediaPlayer) : MediaPlayer :=
  if s.child_finished then
    let s := { s with child_finished := false }
    if s.shuffle_mode then play_random_file env dc r s else s
  else s

/-- The input-dispatch block of `MediaPlayer.run` (one `getch()` result):
`none` models `curses.ERR` (no key pending).  Returns the new state and
whether the loop breaks (quit).  Any real key first marks dirty; the final
`else` branch resets the dirty flag. -/
def handleInput (env : Env) (dc : Int) (r : Nat) (ch : Option Key) (s : MediaPlayer) :
    MediaPlayer × Bool :=
  match ch with
  | none => (s, false)
  | some k =>
    let s := { s with needs_redraw := true }
    match k with
    | .up =>
        (if 0 < s.highlight then
          update_scroll dc { s with highlight := s.highlight - 1 }
         else s, false)
    | .down =>
        (if s.highlight < (s.files.length : Int) - 1 then
          update_scroll dc { s with highlight := s.highlight + 1 }
         else s, false)
    | .pgUp =>
        (update_scroll dc { s with highlight := max 0 (s.highlight - dc) }, false)
    | .pgDn =>
        (update_scroll dc
          { s with highlight := min ((s.files.length : Int) - 1) (s.highlight + dc) }, false)
    | .home => ({ s with highlight := 0, start_index := 0 }, false)
    | .endKey =>
        (update_scroll dc { s with highlight := (s.files.length : Int) - 1 }, false)
    | .enter =>
        let s := { s with shuffle_mode := false }
        (if s.files.isEmpty then s
         else (play_file env (s.files.getD s.highlight.toNat "") s).2, false)
    | .space => (stop_playback env s, false)
    | .keyS =>
        let s := { s with shuffle_mode := !s.shuffle_mode }
        (if s.shuffle_mode && s.mpv_process.isNone then play_random_file env dc r s
         else s, false)
    | .keyR => (play_random_file env dc r s, false)
    | .keyQ => (s, true)
    | .unknown => ({ s with needs_redraw := false }, false)

/-- One iteration of the main event loop: draw if dirty, handle the
finished signal, then dispatch one input event. -/
def loopIter (env : Env) (dc : Int) (r : Nat) (ch : Option Key) (s : MediaPlayer) :
    MediaPlayer × Bool :=
  handleInput env dc r ch (handleFinished env dc r (draw_interface s))

/-- The six pure navigation keys. -/
def isNavKey : Key → Bool
  | .up | .down | .pgUp | .pgDn | .home | .endKey => true
  | _ => false

/-- Apply a sequence of key events (random seed irrelevant for navigation,
fixed to 0). -/
def applyKeys (env : Env) (dc : Int) (ks : List Key) (s : MediaPlayer) : MediaPlayer :=
  ks.foldl (fun t k => (handleInput env dc 0 (some k) t).1) s

/-- The processes of the bookkeeping table that are still running. -/
def liveProcs (s : MediaPlayer) : List Proc :=
  s.procs.filter fun p => p.alive

/-- Well-formedness of the process bookkeeping: every live process is the
one tracked by the session slot, and every recorded pid is below the next
fresh pid. -/
def WF (s : MediaPlayer) : Prop :=
  (∀ p ∈ s.procs, p.alive = true → s.mpv_process = some p.pid) ∧
  (∀ p ∈ s.procs, p.pid < s.nextPid)

/-- Viewport invariant from the spec: `startIndex ≤ highlight <
startIndex + displayCount` and `startIndex ≥ 0`. -/
def ViewInv (dc : Int) (s : MediaPlayer) : Prop :=
  0 ≤ s.start_index ∧ s.start_index ≤ s.highlight ∧ s.highlight < s.start_index + dc

/-- The highlight stays a valid library index. -/
def HlInv (s : MediaPlayer) : Prop :=
  0 ≤ s.highlight ∧ s.highlight < (s.files.length : Int)

/-- An environment in which no candidate player command resolves. -/
def noPlayerEnv : Env := ⟨fun _ => false, 0⟩

/-- An environment in which `mpv` resolves and the child terminates
immediately on request. -/
def mpvEnv : Env := ⟨fun c => c == "mpv", 0⟩

theorem update_scroll_highlight (dc : Int) (s : MediaPlayer) :
    (update_scroll dc s).highlight = s.highlight := rfl

theorem update_scroll_files (dc : Int) (s : MediaPlayer) :
    (update_scroll dc s).files = s.files := rfl

/-- `update_scroll` establishes the viewport invariant whenever the
highlight is non-negative and at least one row is visible. -/
theorem update_scroll_inv (dc : Int) (hdc : 1 ≤ dc) (s : MediaPlayer)
    (hh : 0 ≤ s.highlight) : ViewInv dc (update_scroll dc s) := by
  simp only [ViewInv, update_scroll]
  split_ifs with h1 h2 <;> omega

/-- C6: `update_scroll` implements the minimal-scroll rule: the start
index is unchanged when the highlight is already visible, jumps to the
highlight when the highlight moved above the window, lands on
`highlight - displayCount + 1` when it moved below, and is clamped
non-negative; and in the three-file scenario with `displayCount = 2`, two
Down events give `highlight = 2, startIndex = 1`, and a further Home gives
`highlight = 0, startIndex = 0`. -/
theorem update_scroll_minimal_rule (dc : Int) (hdc : 1 ≤ dc) (s : MediaPlayer)
    (hs : 0 ≤ s.start_index) (hh : 0 ≤ s.highlight) :
    (s.start_index ≤ s.highlight → s.highlight < s.start_index + dc →
      (update_scroll dc s).start_index = s.start_index) ∧
    (s.highlight < s.start_index → (update_scroll dc s).start_index = s.highlight) ∧
    (s.start_index + dc ≤ s.highlight →
      (update_scroll dc s).start_index = s.highlight - dc + 1) ∧
    0 ≤ (update_scroll dc s).start_index ∧
    ((applyKeys noPlayerEnv 2 [Key.down, Key.down]
        (initState ["a.mp3", "b.mp3", "c.mp3"])).highlight = 2 ∧
     (applyKeys noPlayerEnv 2 [Key.down, Key.down]
        (initState ["a.mp3", "b.mp3", "c.mp3"])).start_index = 1 ∧
     (applyKeys noPlayerEnv 2 [Key.down, Key.down, Key.home]
        (initState ["a.mp3", "b.mp3", "c.mp3"])).highlight = 0 ∧
     (applyKeys noPlayerEnv 2 [Key.down, Key.down, Key.home]
        (initState ["a.mp3", "b.mp3", "c.mp3"])).start_index = 0) := by
  refine ⟨?_, ?_, ?_, ?_, by decide⟩ <;>
    simp only [update_scroll, max_def] <;> intros <;> split_ifs <;> omega

/-- Witness for `update_scroll_minimal_rule` at a concrete state. -/
theorem update_scroll_minimal_rule_witness :
    (update_scroll 2 (initState ["a.mp3"])).start_index = 0 :=
  (update_scroll_minimal_rule 2 (by decide) (initState ["a.mp3"]) (by decide)
    (by decide)).1 (by decide) (by decide)

/-- A single navigation key press preserves the viewport invariant, keeps
the highlight a valid index, and leaves the library untouched. -/
theorem navKey_step_inv (env : Env) (dc : Int) (hdc : 1 ≤ dc) (k : Key)
    (hk : isNavKey k = true) (s : MediaPlayer) (hne : s.files ≠ [])
    (hv : ViewInv dc s) (hh : HlInv s) :
    ViewInv dc ((handleInput env dc 0 (some k) s).1) ∧
    HlInv ((handleInput env dc 0 (some k) s).1) ∧
    ((handleInput env dc 0 (some k) s).1).files = s.files := by
  have hlen : 1 ≤ (s.files.length : Int) := by
    have := List.length_pos.mpr hne
    omega
  obtain ⟨hv0, hv1, hv2⟩ := hv
  obtain ⟨hh0, hh1⟩ := hh
  cases k <;> simp only [isNavKey, Bool.false_eq_true] at hk
  case up =>
    simp only [handleInput]
    split_ifs with h
    · have h1 : (0:Int) ≤ s.highlight - 1 := by omega
      refine ⟨update_scroll_inv dc hdc _ h1, ?_, update_scroll_files ..⟩
      simp only [HlInv, update_scroll_highlight, update_scroll_files]
      omega
    · exact ⟨⟨hv0, hv1, hv2⟩, ⟨hh0, hh1⟩, rfl⟩
  case down =>
    simp only [handleInput]
    split_ifs with h
    · have h1 : (0:Int) ≤ s.highlight + 1 := by omega
      refine ⟨update_scroll_inv dc hdc _ h1, ?_, update_scroll_files ..⟩
      simp only [HlInv, update_scroll_highlight, update_scroll_files]
      omega
    · exact ⟨⟨hv0, hv1, hv2⟩, ⟨hh0, hh1⟩, rfl⟩
  case pgUp =>
    simp only [handleInput]
    have h1 : (0:Int) ≤ max 0 (s.highlight - dc) := le_max_left 0 _
    refine ⟨update_scroll_inv dc hdc _ h1, ?_, update_scroll_files ..⟩
    simp only [HlInv, update_scroll_highlight, update_scroll_files, max_def]
    split_ifs <;> omega
  case pgDn =>
    simp only [handleInput]
    have h1 : (0:Int) ≤ min ((s.files.length : Int) - 1) (s.highlight + dc) := by
      simp only [min_def]
      split_ifs <;> omega
    refine ⟨update_scroll_inv dc hdc _ h1, ?_, update_scroll_files ..⟩
    simp only [HlInv, update_scroll_highlight, update_scroll_files, min_def]
    split_ifs <;> omega
  case home =>
    refine ⟨⟨?_, ?_, ?_⟩, ⟨?_, ?_⟩, rfl⟩ <;> simp only [handleInput] <;> omega
  case endKey =>
    simp only [handleInput]
    have h1 : (0:Int) ≤ (s.files.length : Int) - 1 := by omega
    refine ⟨update_scroll_inv dc hdc _ h1, ?_, update_scroll_files ..⟩
    simp only [HlInv, update_scroll_highlight, update_scroll_files]
    omega

/-- C2: for every sequence of Up/Down/PageUp/PageDown/Home/End events on a
non-empty library with a fixed `displayCount ≥ 1`, the viewport satisfies
`startIndex ≤ highlight < startIndex + displayCount` and `startIndex ≥ 0`
after every event (invariant preservation over arbitrary navigation
sequences, hence after each prefix). -/
theorem viewport_invariant_nav_sequences (env : Env) (dc : Int) (hdc : 1 ≤ dc)
    (ks : List Key) (hks : ∀ k ∈ ks, isNavKey k = true) (s : MediaPlayer)
    (hne : s.files ≠ []) (hv : ViewInv dc s) (hh : HlInv s) :
    ViewInv dc (applyKeys env dc ks s) ∧ HlInv (applyKeys env dc ks s) := by
  induction ks generalizing s with
  | nil => exact ⟨hv, hh⟩
  | cons k ks ih =>
      have hstep := navKey_step_inv env dc hdc k (hks k (by simp)) s hne hv hh
      have heq : applyKeys env dc (k :: ks) s
          = applyKeys env dc ks ((handleInput env dc 0 (some k) s).1) := rfl
      rw [heq]
      have hne2 : ((handleInput env dc 0 (some k) s).1).files ≠ [] := by
        rw [hstep.2.2]; exact hne
      exact ih (fun k2 hk2 => hks k2 (by simp [hk2])) _ hne2 hstep.1 hstep.2.1

/-- Witness for `viewport_invariant_nav_sequences`: a concrete navigation
sequence on a three-file library with two visible rows. -/
theorem viewport_invariant_nav_sequences_witness :
    ViewInv 2 (applyKeys noPlayerEnv 2 [Key.down, Key.pgDn, Key.up, Key.endKey, Key.home]
      (initState ["a.mp3", "b.mp3", "c.mp3"])) ∧
    HlInv (applyKeys noPlayerEnv 2 [Key.down, Key.pgDn, Key.up, Key.endKey, Key.home]
      (initState ["a.mp3", "b.mp3", "c.mp3"])) :=
  viewport_invariant_nav_sequences noPlayerEnv 2 (by decide)
    [Key.down, Key.pgDn, Key.up, Key.endKey, Key.home] (by decide)
    (initState ["a.mp3", "b.mp3", "c.mp3"]) (by decide)
    ⟨by decide, by decide, by decide⟩ ⟨by decide, by decide⟩

/-- `stop_playback` with no live session is a plain no-op. -/
theorem stop_playback_none (env : Env) (s : MediaPlayer) (h : s.mpv_process = none) :
    stop_playback env s = s := by
  simp [stop_playback, h]

/-- What `stop_playback` guarantees about the process table: the slot is
cleared, every recorded process is dead, and pids, files and the fresh-pid
counter are untouched. -/
theorem stop_playback_spec (env : Env) (s : MediaPlayer) (hwf : WF s) :
    (stop_playback env s).mpv_process = none ∧
    (stop_playback env s).nextPid = s.nextPid ∧
    (∀ p ∈ (stop_playback env s).procs, p.alive = false) ∧
    (∀ p ∈ (stop_playback env s).procs, ∃ q ∈ s.procs, p.pid = q.pid ∧ p.file = q.file) ∧
    (∀ p ∈ (stop_playback env s).procs, p.pid < s.nextPid) := by
  obtain ⟨h1, h2⟩ := hwf
  cases hmp : s.mpv_process with
  | none =>
      rw [stop_playback_none env s hmp]
      refine ⟨hmp, rfl, ?_, ?_, h2⟩
      · intro p hp
        by_contra hc
        have halive : p.alive = true := by revert hc; cases p.alive <;> simp
        have := h1 p hp halive
        rw [hmp] at this
        exact Option.noConfusion this
      · intro p hp
        exact ⟨p, hp, rfl, rfl⟩
  | some pid =>
      refine ⟨?_, ?_, ?_, ?_, ?_⟩
      · simp [stop_playback, hmp]
      · simp [stop_playback, hmp]
      · intro p hp
        simp only [stop_playback, hmp, markDead, List.mem_map] at hp
        obtain ⟨q, hq, rfl⟩ := hp
        by_cases hqp : q.pid = pid
        · simp [hqp]
        · simp only [if_neg hqp]
          by_contra hc
          have halive : q.alive = true := by revert hc; cases q.alive <;> simp
          have := h1 q hq halive
          rw [hmp] at this
          exact hqp (Option.some.inj this).symm
      · intro p hp
        simp only [stop_playback, hmp, markDead, List.mem_map] at hp
        obtain ⟨q, hq, rfl⟩ := hp
        by_cases hqp : q.pid = pid
        · exact ⟨q, hq, by simp [hqp], by simp [hqp]⟩
        · exact ⟨q, hq, by simp [hqp], by simp [hqp]⟩
      · intro p hp
        simp only [stop_playback, hmp, markDead, List.mem_map] at hp
        obtain ⟨q, hq, rfl⟩ := hp
        by_cases hqp : q.pid = pid
        · simpa [hqp] using h2 q hq
        · simpa [hqp] using h2 q hq

/-- When some candidate player resolves, `firstAvailable` finds one. -/
theorem firstAvailable_of_someAvailable (env : Env) (fp : String)
    (hav : someAvailable env = true) :
    ∃ c, firstAvailable env (MEDIA_PLAYERS fp) = some c := by
  by_cases h1 : env.available "mpv" <;>
    by_cases h2 : env.available "mplayer" <;>
      by_cases h3 : env.available "vlc" <;>
        simp [someAvailable, h1, h2, h3] at hav ⊢ <;>
          simp [firstAvailable, MEDIA_PLAYERS, h1, h2, h3]

/-- What a successful `play_file` guarantees: it returns `True`, the slot
holds the freshly spawned process, that process is the only live one, and
every other recorded process is dead and was carried over (the previous
session was terminated before the launch). -/
theorem play_file_spec (env : Env) (f : String) (s : MediaPlayer) (hwf : WF s)
    (hav : someAvailable env = true) :
    (play_file env f s).1 = true ∧
    (play_file env f s).2.mpv_process = some s.nextPid ∧
    (play_file env f s).2.nextPid = s.nextPid + 1 ∧
    liveProcs (play_file env f s).2 = [⟨s.nextPid, f, true, false⟩] ∧
    (∀ p ∈ (play_file env f s).2.procs, p.pid = s.nextPid → p = ⟨s.nextPid, f, true, false⟩) ∧
    (∀ p ∈ (play_file env f s).2.procs, p.pid ≠ s.nextPid →
      p.alive = false ∧ ∃ q ∈ s.procs, p.pid = q.pid ∧ p.file = q.file) ∧
    WF (play_file env f s).2 := by
  obtain ⟨hmp, hnp, hdead, hfiles, hpid⟩ := stop_playback_spec env s hwf
  obtain ⟨c, hc⟩ := firstAvailable_of_someAvailable env
    ((stop_playback env s).directory ++ "/" ++ f) hav
  have heq : play_file env f s = (true,
      { stop_playback env s with
        procs := (stop_playback env s).procs ++ [⟨s.nextPid, f, true, false⟩]
        nextPid := s.nextPid + 1
        mpv_process := some s.nextPid
        needs_redraw := true }) := by
    simp only [play_file, hc, hnp]
  rw [heq]
  have hfil : (stop_playback env s).procs.filter (fun p => p.alive) = [] := by
    rw [List.filter_eq_nil_iff]
    intro p hp
    simp [hdead p hp]
  refine ⟨rfl, rfl, rfl, ?_, ?_, ?_, ?_, ?_⟩
  · simp only [liveProcs, List.filter_append, hfil, List.nil_append, List.filter_cons]
    simp
  · intro p hp hpideq
    rcases List.mem_append.mp hp with h | h
    · have := hpid p h
      omega
    · simpa using h
  · intro p hp hpidne
    rcases List.mem_append.mp hp with h | h
    · exact ⟨hdead p h, hfiles p h⟩
    · have : p = ⟨s.nextPid, f, true, false⟩ := by simpa using h
      subst this
      exact absurd rfl hpidne
  · intro p hp halive
    rcases List.mem_append.mp hp with h | h
    · rw [hdead p h] at halive
      exact Bool.noConfusion halive
    · have : p = ⟨s.nextPid, f, true, false⟩ := by simpa using h
      subst this
      rfl
  · intro p hp
    show p.pid < s.nextPid + 1
    rcases List.mem_append.mp hp with h | h
    · have := hpid p h
      omega
    · have : p = ⟨s.nextPid, f, true, false⟩ := by simpa using h
      subst this
      simp

/-- C1: `play` enforces the at-most-one-session invariant.  After two
consecutive `play_file` calls, exactly one process is live — the one
spawned by the second call — the session slot points at it, the first call
did spawn a live process, and that first process is dead afterwards (it
was terminated before the second launch). -/
theorem play_twice_at_most_one_session (env : Env) (f1 f2 : String) (s0 : MediaPlayer)
    (hwf : WF s0) (hav : someAvailable env = true) :
    liveProcs (play_file env f2 (play_file env f1 s0).2).2
      = [⟨s0.nextPid + 1, f2, true, false⟩] ∧
    (play_file env f2 (play_file env f1 s0).2).2.mpv_process = some (s0.nextPid + 1) ∧
    (∃ p ∈ (play_file env f1 s0).2.procs,
      p.pid = s0.nextPid ∧ p.file = f1 ∧ p.alive = true) ∧
    (∀ p ∈ (play_file env f2 (play_file env f1 s0).2).2.procs,
      p.pid = s0.nextPid → p.file = f1 ∧ p.alive = false) := by
  obtain ⟨-, hmp1, hnp1, hlive1, huniq1, hold1, hwf1⟩ := play_file_spec env f1 s0 hwf hav
  obtain ⟨-, hmp2, hnp2, hlive2, huniq2, hold2, hwf2⟩ :=
    play_file_spec env f2 (play_file env f1 s0).2 hwf1 hav
  refine ⟨?_, ?_, ?_, ?_⟩
  · rw [hlive2, hnp1]
  · rw [hmp2, hnp1]
  · have hm : (⟨s0.nextPid, f1, true, false⟩ : Proc) ∈ liveProcs (play_file env f1 s0).2 := by
      rw [hlive1]
      exact List.mem_singleton.mpr rfl
    have hmem : (⟨s0.nextPid, f1, true, false⟩ : Proc) ∈ (play_file env f1 s0).2.procs :=
      List.mem_of_mem_filter hm
    exact ⟨⟨s0.nextPid, f1, true, false⟩, hmem, rfl, rfl, rfl⟩
  · intro p hp hpid
    have hne : p.pid ≠ (play_file env f1 s0).2.nextPid := by
      rw [hnp1]
      omega
    obtain ⟨hdead, q, hq, hqpid, hqfile⟩ := hold2 p hp hne
    have hq2 : q = ⟨s0.nextPid, f1, true, false⟩ := huniq1 q hq (by omega)
    refine ⟨?_, hdead⟩
    rw [hqfile, hq2]

/-- Witness for `play_twice_at_most_one_session`: one live process after
two plays on a concrete library with `mpv` available. -/
theorem play_twice_at_most_one_session_witness :
    liveProcs (play_file mpvEnv "b.mp3" (play_file mpvEnv "a.mp3" (initState ["a.mp3", "b.mp3"])).2).2
      = [⟨1, "b.mp3", true, false⟩] :=
  (play_twice_at_most_one_session mpvEnv "a.mp3" "b.mp3" (initState ["a.mp3", "b.mp3"])
    (by constructor <;> simp [initState]) (by decide)).1

/-- `stop_playback` always leaves the session slot empty. -/
theorem stop_playback_mpv_none (env : Env) (s : MediaPlayer) :
    (stop_playback env s).mpv_process = none := by
  cases hmp : s.mpv_process <;> simp [stop_playback, hmp]

/-- C4: the `stop()` contract.  With a live session the slot is always
cleared and the session process ends up not alive; when the child ignores
`terminate()` beyond the 1-second grace period it is force-killed, and
when it obeys within the grace period it is not; with no live session the
call is a no-op leaving the whole state (dirty flag included) unchanged. -/
theorem stop_playback_contract (env : Env) (s : MediaPlayer) :
    (∀ pid, s.mpv_process = some pid →
      (stop_playback env s).mpv_process = none ∧
      (∀ p ∈ (stop_playback env s).procs, p.pid = pid → p.alive = false) ∧
      (STOP_GRACE_SECONDS < env.termTime →
        ∀ p ∈ (stop_playback env s).procs, p.pid = pid → p.killed = true) ∧
      (env.termTime ≤ STOP_GRACE_SECONDS →
        ∀ p ∈ (stop_playback env s).procs, p.pid = pid → p.killed = false)) ∧
    (s.mpv_process = none → stop_playback env s = s) := by
  constructor
  · intro pid hmp
    refine ⟨stop_playback_mpv_none env s, ?_, ?_, ?_⟩
    · intro p hp hpid
      simp only [stop_playback, hmp, markDead, List.mem_map] at hp
      obtain ⟨q, hq, rfl⟩ := hp
      by_cases hqp : q.pid = pid
      · simp [hqp]
      · simp only [if_neg hqp] at hpid
        exact absurd hpid hqp
    · intro ht p hp hpid
      simp only [stop_playback, hmp, markDead, List.mem_map] at hp
      obtain ⟨q, hq, rfl⟩ := hp
      by_cases hqp : q.pid = pid
      · simp only [if_pos hqp]
        simpa using ht
      · simp only [if_neg hqp] at hpid
        exact absurd hpid hqp
    · intro ht p hp hpid
      simp only [stop_playback, hmp, markDead, List.mem_map] at hp
      obtain ⟨q, hq, rfl⟩ := hp
      by_cases hqp : q.pid = pid
      · simp only [if_pos hqp]
        simpa using Nat.not_lt.mpr ht
      · simp only [if_neg hqp] at hpid
        exact absurd hpid hqp
  · exact stop_playback_none env s

/-- Witness for `stop_playback_contract`: a live session is cleared, and a
stop with no session changes nothing. -/
theorem stop_playback_contract_witness :
    (stop_playback ⟨fun c => c == "mpv", 2⟩
      { initState ["a.mp3"] with
        mpv_process := some 0
        procs := [⟨0, "a.mp3", true, false⟩] }).mpv_process = none ∧
    stop_playback ⟨fun c => c == "mpv", 2⟩ (initState []) = initState [] :=
  ⟨((stop_playback_contract ⟨fun c => c == "mpv", 2⟩
      { initState ["a.mp3"] with
        mpv_process := some 0
        procs := [⟨0, "a.mp3", true, false⟩] }).1 0 rfl).1,
   (stop_playback_contract ⟨fun c => c == "mpv", 2⟩ (initState [])).2 rfl⟩

/-- When no candidate player resolves, `firstAvailable` finds none. -/
theorem firstAvailable_none (env : Env) (fp : String) (hun : someAvailable env = false) :
    firstAvailable env (MEDIA_PLAYERS fp) = none := by
  simp only [someAvailable, Bool.or_eq_false_iff] at hun
  simp [firstAvailable, MEDIA_PLAYERS, hun.1.1, hun.1.2, hun.2]

/-- C5: when none of the candidate player commands resolve, every
`play_file` call returns `False`, no session is recorded, and starting
from an idle state the whole call leaves the state unchanged (no
exception: the function returns normally with `False`). -/
theorem play_file_no_player_fails (env : Env) (f : String) (s : MediaPlayer)
    (hun : someAvailable env = false) :
    (play_file env f s).1 = false ∧
    (play_file env f s).2.mpv_process = none ∧
    (s.mpv_process = none → play_file env f s = (false, s)) := by
  have hfa := firstAvailable_none env ((stop_playback env s).directory ++ "/" ++ f) hun
  refine ⟨?_, ?_, ?_⟩
  · simp [play_file, hfa]
  · simpa [play_file, hfa] using stop_playback_mpv_none env s
  · intro hnone
    have hs := stop_playback_none env s hnone
    rw [hs] at hfa
    simp [play_file, hs, hfa]

/-- Witness for `play_file_no_player_fails`: with no player available, a
play call on the initial state returns `False` and changes nothing. -/
theorem play_file_no_player_fails_witness :
    play_file noPlayerEnv "x.mp3" (initState ["x.mp3"]) = (false, initState ["x.mp3"]) :=
  (play_file_no_player_fails noPlayerEnv "x.mp3" (initState ["x.mp3"]) (by decide)).2.2 rfl

/-- `stop_playback` touches only the slot, the dirty flag and the
liveness bits of the process table. -/
theorem stop_playback_fields (env : Env) (s : MediaPlayer) :
    (stop_playback env s).files = s.files ∧
    (stop_playback env s).shuffle_mode = s.shuffle_mode ∧
    (stop_playback env s).child_finished = s.child_finished ∧
    (stop_playback env s).highlight = s.highlight ∧
    (stop_playback env s).start_index = s.start_index ∧
    (stop_playback env s).directory = s.directory ∧
    (stop_playback env s).nextPid = s.nextPid := by
  cases hmp : s.mpv_process <;> simp [stop_playback, hmp]

/-- `play_file` never touches the library, the shuffle flag, the finished
signal or the viewport. -/
theorem play_file_fields (env : Env) (f : String) (s : MediaPlayer) :
    ((play_file env f s).2).files = s.files ∧
    ((play_file env f s).2).shuffle_mode = s.shuffle_mode ∧
    ((play_file env f s).2).child_finished = s.child_finished ∧
    ((play_file env f s).2).highlight = s.highlight ∧
    ((play_file env f s).2).start_index = s.start_index ∧
    ((play_file env f s).2).directory = s.directory := by
  obtain ⟨h1, h2, h3, h4, h5, h6, h7⟩ := stop_playback_fields env s
  cases hfa : firstAvailable env (MEDIA_PLAYERS ((stop_playback env s).directory ++ "/" ++ f)) <;>
    simp only [play_file, hfa] <;>
      exact ⟨h1, h2, h3, h4, h5, h6⟩

/-- Field behaviour of `play_random_file` on a non-empty library: the
highlight becomes the drawn index, the session comes from the inner
`play_file`, and the library, shuffle flag and finished signal are
untouched. -/
theorem play_random_file_fields (env : Env) (dc : Int) (r : Nat) (s : MediaPlayer)
    (hne : s.files ≠ []) :
    (play_random_file env dc r s).highlight = ((r % s.files.length : Nat) : Int) ∧
    (play_random_file env dc r s).mpv_process
      = (play_file env (s.files.getD (r % s.files.length) "") s).2.mpv_process ∧
    (play_random_file env dc r s).procs
      = (play_file env (s.files.getD (r % s.files.length) "") s).2.procs ∧
    (play_random_file env dc r s).shuffle_mode = s.shuffle_mode ∧
    (play_random_file env dc r s).child_finished = s.child_finished ∧
    (play_random_file env dc r s).files = s.files ∧
    (play_random_file env dc r s).needs_redraw = true := by
  obtain ⟨g1, g2, g3, g4, g5, g6⟩ :=
    play_file_fields env (s.files.getD (r % s.files.length) "") s
  have hemp : s.files.isEmpty = false := by
    simpa [List.isEmpty_iff] using hne
  have hunfold : play_random_file env dc r s
      = { update_scroll dc
            { (play_file env (s.files.getD (r % s.files.length) "") s).2 with
              highlight := ((r % s.files.length : Nat) : Int) } with
          needs_redraw := true } := by
    simp [play_random_file, hemp]
  rw [hunfold]
  exact ⟨rfl, rfl, rfl, g2, g3, g1, rfl⟩

/-- C10 helper and claim body: on an empty library `play_random_file`
returns the state unchanged (no process spawned, no random draw, no field
written). -/
theorem play_random_file_empty_eq (env : Env) (dc : Int) (r : Nat) (s : MediaPlayer)
    (h : s.files = []) : play_random_file env dc r s = s := by
  simp [play_random_file, h]

/-- `play_random_file` preserves the finished signal in every case. -/
theorem play_random_file_child_finished (env : Env) (dc : Int) (r : Nat) (s : MediaPlayer) :
    (play_random_file env dc r s).child_finished = s.child_finished := by
  by_cases hne : s.files = []
  · rw [play_random_file_empty_eq env dc r s hne]
  · exact (play_random_file_fields env dc r s hne).2.2.2.2.1

/-- C3: in every event-loop iteration the finished signal, when set, is
consumed (reset) exactly once, and the random-play transition fires if and
only if the shuffle flag is enabled at that moment; with the flag
disabled, consuming the signal changes nothing else (no playback starts). -/
theorem finished_signal_contract (env : Env) (dc : Int) (r : Nat) (s : MediaPlayer) :
    (s.child_finished = true → (handleFinished env dc r s).child_finished = false) ∧
    (s.child_finished = true → s.shuffle_mode = true →
      handleFinished env dc r s = play_random_file env dc r { s with child_finished := false }) ∧
    (s.child_finished = true → s.shuffle_mode = false →
      handleFinished env dc r s = { s with child_finished := false }) ∧
    (s.child_finished = false → handleFinished env dc r s = s) := by
  refine ⟨?_, ?_, ?_, ?_⟩
  · intro h
    by_cases hs : s.shuffle_mode = true
    · have heq : handleFinished env dc r s
          = play_random_file env dc r { s with child_finished := false } := by
        simp [handleFinished, h, hs]
      rw [heq, play_random_file_child_finished]
    · have hs2 : s.shuffle_mode = false := by
        revert hs
        cases s.shuffle_mode <;> simp
      simp [handleFinished, h, hs2]
  · intro h hs
    simp [handleFinished, h, hs]
  · intro h hs
    simp [handleFinished, h, hs]
  · intro h
    simp [handleFinished, h]

/-- Witness for `finished_signal_contract`: with shuffle off, consuming
the finished signal only resets it. -/
theorem finished_signal_contract_witness :
    handleFinished noPlayerEnv 5 0 { initState ["a.mp3"] with child_finished := true }
      = initState ["a.mp3"] :=
  (finished_signal_contract noPlayerEnv 5 0
    { initState ["a.mp3"] with child_finished := true }).2.2.1 rfl rfl

/-- C10: with an empty library the random-play operation returns
immediately: no process start, no random draw consulted, no change to
highlight, start index or anything else. -/
theorem play_random_file_empty_noop (env : Env) (dc : Int) (r : Nat) (s : MediaPlayer)
    (h : s.files = []) :
    play_random_file env dc r s = s ∧
    (∀ r2 : Nat, play_random_file env dc r2 s = play_random_file env dc r s) := by
  refine ⟨play_random_file_empty_eq env dc r s h, ?_⟩
  intro r2
  rw [play_random_file_empty_eq env dc r s h, play_random_file_empty_eq env dc r2 s h]

/-- Witness for `play_random_file_empty_noop`: concrete empty library. -/
theorem play_random_file_empty_noop_witness :
    play_random_file mpvEnv 3 7 (initState []) = initState [] :=
  (play_random_file_empty_noop mpvEnv 3 7 (initState []) rfl).1

/-- Pressing the shuffle key always flips the shuffle flag (the
random-play call it may trigger does not touch the flag). -/
theorem handleInput_keyS_shuffle (env : Env) (dc : Int) (r : Nat) (s : MediaPlayer) :
    ((handleInput env dc r (some Key.keyS) s).1).shuffle_mode = !s.shuffle_mode := by
  simp only [handleInput]
  split_ifs with hc
  · by_cases hne :
      ({ s with needs_redraw := true, shuffle_mode := !s.shuffle_mode } : MediaPlayer).files = []
    · rw [play_random_file_empty_eq _ _ _ _ hne]
    · exact (play_random_file_fields _ _ _ _ hne).2.2.2.1
  · rfl

/-- C7: the shuffle key flips the flag (for every state), and when the
flag turns on while nothing is playing (and a player is available)
playback of some library file starts immediately, with the highlight
moved to that file's index. -/
theorem toggle_shuffle_starts_playback (env : Env) (dc : Int) (r : Nat) (s : MediaPlayer)
    (hwf : WF s) (hne : s.files ≠ []) (hav : someAvailable env = true)
    (hsh : s.shuffle_mode = false) (hidle : s.mpv_process = none) :
    (∀ s2 : MediaPlayer,
      ((handleInput env dc r (some Key.keyS) s2).1).shuffle_mode = !s2.shuffle_mode) ∧
    ((handleInput env dc r (some Key.keyS) s).1).shuffle_mode = true ∧
    (∃ i : Nat, i < s.files.length ∧
      ((handleInput env dc r (some Key.keyS) s).1).highlight = (i : Int) ∧
      ∃ p ∈ ((handleInput env dc r (some Key.keyS) s).1).procs,
        ((handleInput env dc r (some Key.keyS) s).1).mpv_process = some p.pid ∧
        p.alive = true ∧ p.file = s.files.getD i "") := by
  have hstep : (handleInput env dc r (some Key.keyS) s).1
      = play_random_file env dc r { s with needs_redraw := true, shuffle_mode := true } := by
    simp [handleInput, hsh, hidle]
  have hne2 : ({ s with needs_redraw := true, shuffle_mode := true } : MediaPlayer).files ≠ [] :=
    hne
  have hwf2 : WF { s with needs_redraw := true, shuffle_mode := true } := hwf
  obtain ⟨g1, g2, g3, g4, g5, g6, g7⟩ :=
    play_random_file_fields env dc r { s with needs_redraw := true, shuffle_mode := true } hne2
  obtain ⟨f1, f2, f3, f4, f5, f6, f7⟩ :=
    play_file_spec env
      (({ s with needs_redraw := true, shuffle_mode := true } : MediaPlayer).files.getD
        (r % ({ s with needs_redraw := true, shuffle_mode := true } : MediaPlayer).files.length) "")
      { s with needs_redraw := true, shuffle_mode := true } hwf2 hav
  have hlen : 0 < s.files.length := List.length_pos.mpr hne
  refine ⟨fun s2 => handleInput_keyS_shuffle env dc r s2, ?_⟩
  rw [hstep]
  constructor
  · rw [g4]
  · refine ⟨r % s.files.length, Nat.mod_lt r hlen, ?_, ?_⟩
    · rw [g1]
    · have hmem : (⟨s.nextPid, s.files.getD (r % s.files.length) "", true, false⟩ : Proc)
          ∈ (play_file env (s.files.getD (r % s.files.length) "")
              { s with needs_redraw := true, shuffle_mode := true }).2.procs := by
        apply List.mem_of_mem_filter (p := fun p => p.alive)
        show _ ∈ liveProcs _
        rw [f4]
        exact List.mem_singleton.mpr rfl
      refine ⟨⟨s.nextPid, s.files.getD (r % s.files.length) "", true, false⟩, ?_, ?_, rfl, rfl⟩
      · rw [g3]
        exact hmem
      · rw [g2, f2]

/-- Witness for `toggle_shuffle_starts_playback`: pressing the shuffle key
on the idle two-file initial state with `mpv` available. -/
theorem toggle_shuffle_starts_playback_witness :
    ((handleInput mpvEnv 5 1 (some Key.keyS) (initState ["a.mp3", "b.mp3"])).1).shuffle_mode
      = true :=
  (toggle_shuffle_starts_playback mpvEnv 5 1 (initState ["a.mp3", "b.mp3"])
    (by constructor <;> simp [initState]) (by decide) (by decide) rfl rfl).2.1

theorem update_scroll_redraw (dc : Int) (s : MediaPlayer) :
    (update_scroll dc s).needs_redraw = s.needs_redraw := rfl

/-- `stop_playback` never clears a set dirty flag. -/
theorem stop_playback_redraw (env : Env) (s : MediaPlayer) (h : s.needs_redraw = true) :
    (stop_playback env s).needs_redraw = true := by
  cases hmp : s.mpv_process <;> simp [stop_playback, hmp, h]

/-- `play_file` never clears a set dirty flag. -/
theorem play_file_redraw (env : Env) (f : String) (s : MediaPlayer) (h : s.needs_redraw = true) :
    ((play_file env f s).2).needs_redraw = true := by
  cases hfa : firstAvailable env (MEDIA_PLAYERS ((stop_playback env s).directory ++ "/" ++ f)) with
  | none =>
      simp only [play_file, hfa]
      exact stop_playback_redraw env s h
  | some c =>
      simp only [play_file, hfa]

/-- `play_random_file` never clears a set dirty flag. -/
theorem play_random_file_redraw (env : Env) (dc : Int) (r : Nat) (s : MediaPlayer)
    (h : s.needs_redraw = true) : (play_random_file env dc r s).needs_redraw = true := by
  by_cases hne : s.files = []
  · rw [play_random_file_empty_eq env dc r s hne]
    exact h
  · exact (play_random_file_fields env dc r s hne).2.2.2.2.2.2

/-- The finished-signal handler never clears a set dirty flag. -/
theorem handleFinished_redraw (env : Env) (dc : Int) (r : Nat) (s : MediaPlayer)
    (h : s.needs_redraw = true) : (handleFinished env dc r s).needs_redraw = true := by
  obtain ⟨c1, c2, c3, c4⟩ := finished_signal_contract env dc r s
  cases hcf : s.child_finished with
  | false =>
      rw [c4 hcf]
      exact h
  | true =>
      cases hsh : s.shuffle_mode with
      | false =>
          rw [c3 hcf hsh]
          exact h
      | true =>
          rw [c2 hcf hsh]
          exact play_random_file_redraw env dc r _ h

/-- The monitor tick never clears a set dirty flag. -/
theorem monitorTick_redraw (ex : Bool) (s : MediaPlayer) (h : s.needs_redraw = true) :
    (monitorTick ex s).needs_redraw = true := by
  cases hmp : s.mpv_process with
  | none => simpa [monitorTick, hmp] using h
  | some pid => cases ex <;> simp [monitorTick, hmp, h]

/-- The input dispatch clears a set dirty flag only in its final `else`
branch (a recognized but unhandled key). -/
theorem handleInput_redraw (env : Env) (dc : Int) (r : Nat) (ch : Option Key) (s : MediaPlayer)
    (h : s.needs_redraw = true) (hch : ch ≠ some Key.unknown) :
    ((handleInput env dc r ch s).1).needs_redraw = true := by
  match ch with
  | none => exact h
  | some k =>
    cases k
    case up =>
      simp only [handleInput]
      split_ifs <;> rfl
    case down =>
      simp only [handleInput]
      split_ifs <;> rfl
    case pgUp => rfl
    case pgDn => rfl
    case home => rfl
    case endKey => rfl
    case enter =>
      simp only [handleInput]
      split_ifs with hemp
      · rfl
      · exact play_file_redraw env _ _ rfl
    case space => exact stop_playback_redraw env _ rfl
    case keyS =>
      simp only [handleInput]
      split_ifs with hcond
      · exact play_random_file_redraw env dc r _ rfl
      · rfl
    case keyR => exact play_random_file_redraw env dc r _ rfl
    case keyQ => rfl
    case unknown => exact absurd rfl hch

/-- C8 counterexample: pressing an unrecognized key takes the dirty flag
from set to cleared although `handleInput` (the embedding of the input
branch alone) performs no render. -/
theorem dirty_flag_cleared_without_render :
    (initState ["a.mp3"]).needs_redraw = true ∧
    ((handleInput noPlayerEnv 5 0 (some Key.unknown) (initState ["a.mp3"])).1).needs_redraw
      = false :=
  ⟨rfl, rfl⟩

/-- C8 amended: a set dirty flag survives the finished-signal handler, the
monitor tick and every input event except a recognized-but-unhandled key
(whose `else` branch resets the flag without a render); `draw_interface`
is the transition that clears it after rendering. -/
theorem dirty_flag_cleared_only_by_render_or_unknown_key (env : Env) (dc : Int) (r : Nat)
    (ch : Option Key) (ex : Bool) (s : MediaPlayer) (h : s.needs_redraw = true) :
    (ch ≠ some Key.unknown → ((handleInput env dc r ch s).1).needs_redraw = true) ∧
    (handleFinished env dc r s).needs_redraw = true ∧
    (monitorTick ex s).needs_redraw = true ∧
    (draw_interface s).needs_redraw = false := by
  refine ⟨fun hch => handleInput_redraw env dc r ch s h hch,
    handleFinished_redraw env dc r s h, monitorTick_redraw ex s h, ?_⟩
  simp [draw_interface, h]

/-- Witness for `dirty_flag_cleared_only_by_render_or_unknown_key`. -/
theorem dirty_flag_cleared_only_by_render_or_unknown_key_witness :
    ((handleInput noPlayerEnv 5 0 (some Key.home) (initState ["a.mp3"])).1).needs_redraw
      = true :=
  (dirty_flag_cleared_only_by_render_or_unknown_key noPlayerEnv 5 0 (some Key.home) false
    (initState ["a.mp3"]) rfl).1 (by decide)

/-- The shared mutable fields of `PlayerState` accessed by both the event
loop and the monitor thread. -/
inductive SharedVar where
  | procSlot
  | finishedFlag
  | redrawFlag
deriving DecidableEq, Repr

/-- An atomic step as written in the source: acquiring or releasing
`self.lock` (the `with self.lock:` blocks), or a read/write of one of the
shared fields. -/
inductive LockOp where
  | acquire
  | release
  | read (v : SharedVar)
  | write (v : SharedVar)
deriving DecidableEq, Repr

/-- `PlayerState.get_process`: `with self.lock: return self.mpv_process`. -/
def getProcessOps : List LockOp :=
  [LockOp.acquire, LockOp.read SharedVar.procSlot, LockOp.release]

/-- `PlayerState.set_process`: `with self.lock: self.mpv_process = p`. -/
def setProcessOps : List LockOp :=
  [LockOp.acquire, LockOp.write SharedVar.procSlot, LockOp.release]

/-- One `_monitor_processes` iteration that observes an exited child:
`get_process()`, `set_process(None)`, then the bare assignments
`self.state.child_finished = True` and `self.state.needs_redraw = True`
performed with no lock held. -/
def monitorTickOps : List LockOp :=
  getProcessOps ++ setProcessOps ++
    [LockOp.write SharedVar.finishedFlag, LockOp.write SharedVar.redrawFlag]

/-- `stop_playback` with a live session: `get_process()`, terminate and
wait (no shared state), then in the `finally` block `set_process(None)`
and the bare assignment `self.state.needs_redraw = True`. -/
def stopPlaybackOps : List LockOp :=
  getProcessOps ++ setProcessOps ++ [LockOp.write SharedVar.redrawFlag]

/-- The event loop's finished-signal handling: it reads
`self.state.child_finished` and then assigns it `False`, never touching
the lock. -/
def loopFinishedOps : List LockOp :=
  [LockOp.read SharedVar.finishedFlag, LockOp.write SharedVar.finishedFlag]

/-- Check that every shared read/write happens while the lock is held,
threading the current lock depth. -/
def guardedFrom : Nat → List LockOp → Bool
  | _, [] => true
  | d, LockOp.acquire :: rest => guardedFrom (d + 1) rest
  | d, LockOp.release :: rest => guardedFrom (d - 1) rest
  | d, LockOp.read _ :: rest => decide (0 < d) && guardedFrom d rest
  | d, LockOp.write _ :: rest => decide (0 < d) && guardedFrom d rest

/-- All shared accesses of the sequence occur inside a critical section. -/
def allAccessesGuarded (ops : List LockOp) : Bool := guardedFrom 0 ops

/-- Restrict an op sequence to the lock operations plus the accesses of a
single shared variable. -/
def restrictTo (v : SharedVar) (ops : List LockOp) : List LockOp :=
  ops.filter fun op =>
    match op with
    | LockOp.acquire => true
    | LockOp.release => true
    | LockOp.read w => w == v
    | LockOp.write w => w == v

/-- The ops strictly between the first read of the session slot and the
subsequent clearing write to it. -/
def betweenReadAndClear (ops : List LockOp) : List LockOp :=
  ((ops.dropWhile fun op => op != LockOp.read SharedVar.procSlot).drop 1).takeWhile
    fun op => op != LockOp.write SharedVar.procSlot

/-- C9 counterexample: not every access to the shared state goes through
the lock.  The monitor writes the finished and redraw flags outside any
critical section, the event loop consumes the finished flag with no lock
at all, and in `stop_playback` a `release` separates the liveness read
from the clearing write, so read-then-clear is not atomic. -/
theorem shared_state_not_all_guarded :
    allAccessesGuarded monitorTickOps = false ∧
    allAccessesGuarded loopFinishedOps = false ∧
    LockOp.release ∈ betweenReadAndClear stopPlaybackOps := by decide

/-- C9 amended: only the session-handle accesses are guarded.  Restricted
to the slot, every access of the monitor and of `stop_playback` (via
`get_process`/`set_process`) is inside a critical section, while the
finished-flag and redraw-flag accesses are unguarded and the slot's
read-then-clear spans two critical sections in both actors. -/
theorem session_slot_accesses_guarded :
    allAccessesGuarded (restrictTo SharedVar.procSlot monitorTickOps) = true ∧
    allAccessesGuarded (restrictTo SharedVar.procSlot stopPlaybackOps) = true ∧
    allAccessesGuarded getProcessOps = true ∧
    allAccessesGuarded setProcessOps = true ∧
    allAccessesGuarded (restrictTo SharedVar.finishedFlag monitorTickOps) = false ∧
    allAccessesGuarded (restrictTo SharedVar.redrawFlag stopPlaybackOps) = false ∧
    LockOp.release ∈ betweenReadAndClear stopPlaybackOps ∧
    LockOp.release ∈ betweenReadAndClear monitorTickOps := by decide
